import Mathlib

/-!
Verification of the MarketAnalyzer core against its specification.

The Python source is embedded shallowly:

* pandas float64 series are modelled as lists of exact rationals; where
  NaN/infinity semantics matter (RSI, lag columns, returns) the value type
  `PyF` carries finite rationals together with the IEEE special values
  and the arithmetic follows IEEE-754 rules (signed zero ignored);
* fallible code returns `Except Err`; the `Err` constructors name the
  Python exception raised at the corresponding point of the source;
* mutation of a component's held DataFrame is modelled with an explicit
  heap of table values, so aliasing between a caller's table and a
  component's private copy is observable.
-/

/-- Python exceptions raised by the core, by the point of the source that
raises them. -/
inductive Err where
  | validationError   -- ValueError / TypeError raised by an explicit check
  | zeroDivisionError -- ZeroDivisionError from division by zero
  | keyError          -- KeyError from a missing DataFrame column
  | notTrainedError   -- RuntimeError("Model is not trained.")
  | indexError        -- IndexError from indexing an empty prediction array
  deriving DecidableEq

/-- IEEE-754 double values as used by pandas/numpy: a finite value
(idealised as an exact rational), the two infinities, and NaN.
Signed zero is not modelled; the zeros produced in this development are
all positive zeros. -/
inductive PyF where
  | fin : ℚ → PyF
  | pinf : PyF
  | ninf : PyF
  | nan : PyF
  deriving DecidableEq

namespace PyF

/-- IEEE addition. -/
def add : PyF → PyF → PyF
  | nan, _ => nan
  | _, nan => nan
  | fin a, fin b => fin (a + b)
  | pinf, ninf => nan
  | ninf, pinf => nan
  | pinf, _ => pinf
  | _, pinf => pinf
  | ninf, _ => ninf
  | _, ninf => ninf

/-- IEEE subtraction. -/
def sub : PyF → PyF → PyF
  | nan, _ => nan
  | _, nan => nan
  | fin a, fin b => fin (a - b)
  | pinf, pinf => nan
  | ninf, ninf => nan
  | pinf, _ => pinf
  | _, pinf => ninf
  | ninf, _ => ninf
  | _, ninf => pinf

/-- IEEE division (zeros treated as +0). -/
def div : PyF → PyF → PyF
  | nan, _ => nan
  | _, nan => nan
  | fin a, fin b =>
      if b = 0 then (if 0 < a then pinf else if a < 0 then ninf else nan)
      else fin (a / b)
  | fin _, pinf => fin 0
  | fin _, ninf => fin 0
  | pinf, fin b => if b < 0 then ninf else pinf
  | ninf, fin b => if b < 0 then pinf else ninf
  | _, _ => nan

/-- IEEE negation. -/
def neg : PyF → PyF
  | nan => nan
  | pinf => ninf
  | ninf => pinf
  | fin a => fin (-a)

end PyF

/-- Embeds `Series.clip(lower=0)`: negative values become 0, NaN stays NaN. -/
def clipLower0 : PyF → PyF
  | PyF.nan => PyF.nan
  | PyF.pinf => PyF.pinf
  | PyF.ninf => PyF.fin 0
  | PyF.fin a => PyF.fin (max a 0)

/-- Embeds `Series.clip(upper=0)`: positive values become 0, NaN stays NaN. -/
def clipUpper0 : PyF → PyF
  | PyF.nan => PyF.nan
  | PyF.pinf => PyF.fin 0
  | PyF.ninf => PyF.ninf
  | PyF.fin a => PyF.fin (min a 0)

/-! ## Decision rule: `strategy.py`, class TradingStrategy -/

/-- The three possible recommendations returned by
`TradingStrategy.recommend`. -/
inductive Recommendation where
  | BUY
  | SELL
  | HOLD
  deriving DecidableEq

/-- Embeds `TradingStrategy.__init__`: the three numbers held by the object. -/
structure TradingStrategy where
  last_close : ℚ
  predicted_price : ℚ
  threshold : ℚ

/-- Embeds `TradingStrategy.recommend`:
`change = (predicted_price - last_close) / last_close`; Python raises
ZeroDivisionError at that division when `last_close = 0`, otherwise the
result is classified by strict comparisons against the threshold. -/
def TradingStrategy.recommend (s : TradingStrategy) : Except Err Recommendation :=
  if s.last_close = 0 then Except.error Err.zeroDivisionError
  else
    let change := (s.predicted_price - s.last_close) / s.last_close
    if change > s.threshold then Except.ok Recommendation.BUY
    else if change < -s.threshold then Except.ok Recommendation.SELL
    else Except.ok Recommendation.HOLD

/-- Claim C1: for every predicted price and threshold, invoking the decision
rule with `last_close = 0` fails fast with an error (the ZeroDivisionError
raised at the division, which the spec's condition-based error taxonomy
files under `ValidationError`: zero base price in the decision rule), and
never returns a recommendation. -/
theorem c1_zero_last_close_fails (p t : ℚ) :
    (TradingStrategy.mk 0 p t).recommend = Except.error Err.zeroDivisionError := by
  simp [TradingStrategy.recommend]

/-- Claim C4, counterexample: with `last_close = 100`, `predicted = 50` and
`threshold = -1/2` the relative change equals the threshold exactly, yet the
code returns SELL, not the HOLD the claim demands for `change = threshold`;
so the claim is false for negative thresholds. -/
theorem c4_counterexample :
    ((50 - 100 : ℚ) / 100 = (-1/2 : ℚ))
    ∧ (TradingStrategy.mk 100 50 (-1/2)).recommend
        = Except.ok Recommendation.SELL := by
  constructor
  · norm_num
  · simp [TradingStrategy.recommend]
    norm_num

/-- Claim C4, amended: for every nonzero `last_close`, every
`predicted_price`, and every nonnegative `threshold`, with
`change = (predicted_price - last_close)/last_close`, the rule returns BUY
iff `change > threshold`, SELL iff `change < -threshold`, HOLD iff
`-threshold ≤ change ≤ threshold`; in particular `change = threshold`
yields HOLD. -/
theorem c4_recommend_amended (lc p t : ℚ) (hlc : lc ≠ 0) (ht : 0 ≤ t) :
    ((TradingStrategy.mk lc p t).recommend = Except.ok Recommendation.BUY
        ↔ (p - lc) / lc > t)
    ∧ ((TradingStrategy.mk lc p t).recommend = Except.ok Recommendation.SELL
        ↔ (p - lc) / lc < -t)
    ∧ ((TradingStrategy.mk lc p t).recommend = Except.ok Recommendation.HOLD
        ↔ (-t ≤ (p - lc) / lc ∧ (p - lc) / lc ≤ t))
    ∧ ((p - lc) / lc = t →
        (TradingStrategy.mk lc p t).recommend = Except.ok Recommendation.HOLD) := by
  unfold TradingStrategy.recommend
  simp only [hlc, if_false]
  set c := (p - lc) / lc with hc
  refine ⟨?_, ?_, ?_, ?_⟩
  · constructor
    · intro h
      by_contra hgt
      simp only [if_neg hgt] at h
      split at h <;> simp_all
    · intro h
      simp [h]
  · constructor
    · intro h
      by_cases hb : c > t
      · simp [hb] at h
      · by_cases hs : c < -t
        · exact hs
        · simp [hb, hs] at h
    · intro h
      have hb : ¬ c > t := by
        intro hgt
        have : -t ≤ t := by linarith
        linarith
      simp [hb, h]
  · constructor
    · intro h
      by_cases hb : c > t
      · simp [hb] at h
      · by_cases hs : c < -t
        · simp [hb, hs] at h
        · constructor <;> [linarith [not_lt.mp hs]; exact not_lt.mp hb]
    · intro h
      have hb : ¬ c > t := not_lt.mpr h.2
      have hs : ¬ c < -t := not_lt.mpr h.1
      simp [hb, hs]
  · intro h
    have hb : ¬ c > t := by rw [h]; exact lt_irrefl t
    have hs : ¬ c < -t := by rw [h]; intro hlt; linarith
    simp [hb, hs]

/-- Witness for the amended claim C4 at the spec's boundary example:
`last_close = 100`, `predicted = 101`, `threshold = 1/100` sits exactly on
the boundary and yields HOLD. -/
theorem c4_witness :
    (TradingStrategy.mk 100 101 (1/100)).recommend = Except.ok Recommendation.HOLD := by
  have h := (c4_recommend_amended 100 101 (1/100) (by norm_num) (by norm_num)).2.2.2
  exact h (by norm_num)

/-! ## Indicator Engine: `indicators.py`, class TechnicalIndicators

The engine holds a copy of its input table and reads only the Close
column; the indicator computations below are functions of that column,
a list of (finite) closing prices. -/

/-- Embeds `Series.diff()`: first entry NaN, entry `t` is `x[t] - x[t-1]`. -/
def seriesDiff (xs : List ℚ) : List PyF :=
  match xs with
  | [] => []
  | _ :: rest =>
      PyF.nan :: List.zipWith (fun cur prev => PyF.fin (cur - prev)) rest xs

/-- The trailing window of `w` entries ending at (and including) index `t`. -/
def windowSliceF (xs : List PyF) (w t : ℕ) : List PyF :=
  (xs.drop (t + 1 - w)).take w

/-- Embeds `Series.rolling(w).mean()` over a float series: NaN until `w` entries
are available, otherwise the IEEE mean of the trailing `w` entries (so a
NaN anywhere in the window makes the mean NaN). -/
def rollingMeanF (xs : List PyF) (w : ℕ) : List PyF :=
  (List.range xs.length).map fun t =>
    if t + 1 < w then PyF.nan
    else PyF.div ((windowSliceF xs w t).foldr PyF.add (PyF.fin 0)) (PyF.fin w)

/-- Embeds `Series.rolling(w).mean()` over the (finite) Close column: `none`
until `w` entries are available, then the arithmetic mean of the trailing
`w` entries. -/
def rollingMeanQ (xs : List ℚ) (w : ℕ) : List (Option ℚ) :=
  (List.range xs.length).map fun t =>
    if t + 1 < w then none
    else some (((xs.drop (t + 1 - w)).take w).sum / (w : ℚ))

/-- Embeds `TechnicalIndicators.sma`: guard on the window, then
`self.data["Close"].rolling(window=window).mean()`. -/
def sma (close : List ℚ) (window : ℤ) : Except Err (List (Option ℚ)) :=
  if window ≤ 0 then Except.error Err.validationError
  else Except.ok (rollingMeanQ close window.toNat)

/-- The recursive exponential update of `Series.ewm(adjust=False).mean()`
after the first observation: `y = (1-α)·prev + α·x`. -/
def ewmAux (a : ℚ) (prev : ℚ) : List ℚ → List ℚ
  | [] => []
  | x :: xs =>
      let y := (1 - a) * prev + a * x
      y :: ewmAux a y xs

/-- Embeds `Series.ewm(span, adjust=False).mean()`: the first observation seeds
the recursion. -/
def ewmMean (a : ℚ) : List ℚ → List ℚ
  | [] => []
  | x :: xs => x :: ewmAux a x xs

/-- The smoothing factor pandas derives from a span: `α = 2/(span+1)`. -/
def spanAlpha (w : ℕ) : ℚ := 2 / ((w : ℚ) + 1)

/-- Embeds `TechnicalIndicators.ema`: guard on the window, then
`self.data["Close"].ewm(span=window, adjust=False).mean()`. -/
def ema (close : List ℚ) (window : ℤ) : Except Err (List ℚ) :=
  if window ≤ 0 then Except.error Err.validationError
  else Except.ok (ewmMean (spanAlpha window.toNat) close)

/-- Embeds `gain = delta.clip(lower=0)` of `TechnicalIndicators.rsi`. -/
def rsiGain (close : List ℚ) : List PyF :=
  (seriesDiff close).map clipLower0

/-- Embeds `loss = -delta.clip(upper=0)` of `TechnicalIndicators.rsi`. -/
def rsiLoss (close : List ℚ) : List PyF :=
  (seriesDiff close).map (fun d => PyF.neg (clipUpper0 d))

/-- Embeds `avg_gain = gain.rolling(window).mean()`. -/
def rsiAvgGain (close : List ℚ) (w : ℕ) : List PyF :=
  rollingMeanF (rsiGain close) w

/-- Embeds `avg_loss = loss.rolling(window).mean()`. -/
def rsiAvgLoss (close : List ℚ) (w : ℕ) : List PyF :=
  rollingMeanF (rsiLoss close) w

/-- The body of `TechnicalIndicators.rsi`:
`rs = avg_gain / avg_loss; rsi = 100 - (100 / (1 + rs))`, all elementwise
IEEE float arithmetic. -/
def rsiCore (close : List ℚ) (w : ℕ) : List PyF :=
  let rs := List.zipWith PyF.div (rsiAvgGain close w) (rsiAvgLoss close w)
  rs.map fun r => PyF.sub (PyF.fin 100) (PyF.div (PyF.fin 100) (PyF.add (PyF.fin 1) r))

/-- Embeds `TechnicalIndicators.rsi`: guard on the window, then the body. -/
def rsi (close : List ℚ) (window : ℤ) : Except Err (List PyF) :=
  if window ≤ 0 then Except.error Err.validationError
  else Except.ok (rsiCore close window.toNat)

/-- The table returned by `TechnicalIndicators.macd`, with its three
columns named as in the source. -/
structure MacdFrame where
  MACD : List ℚ
  Signal : List ℚ
  Histogram : List ℚ
  deriving DecidableEq

/-- Embeds `TechnicalIndicators.macd`: guard on the three periods, then
`macd_line = ema(fast) - ema(slow)`,
`signal_line = macd_line.ewm(span=signal, adjust=False).mean()`,
`histogram = macd_line - signal_line`. -/
def macd (close : List ℚ) (fast slow signal : ℤ) : Except Err MacdFrame :=
  if fast ≤ 0 ∨ slow ≤ 0 ∨ signal ≤ 0 then Except.error Err.validationError
  else
    let emaFast := ewmMean (spanAlpha fast.toNat) close
    let emaSlow := ewmMean (spanAlpha slow.toNat) close
    let macdLine := List.zipWith (fun a b => a - b) emaFast emaSlow
    let signalLine := ewmMean (spanAlpha signal.toNat) macdLine
    let histogram := List.zipWith (fun a b => a - b) macdLine signalLine
    Except.ok (MacdFrame.mk macdLine signalLine histogram)

/-! ### Helper lemmas on list indexing -/

theorem zipWith_get_eq {α β γ : Type} (f : α → β → γ) :
    ∀ (l₁ : List α) (l₂ : List β) (i : ℕ),
      (List.zipWith f l₁ l₂)[i]? = l₁[i]?.bind fun a => (l₂[i]?).map (f a) := by
  intro l₁
  induction l₁ with
  | nil => intro l₂ i; simp
  | cons a l ih =>
      intro l₂ i
      cases l₂ with
      | nil => simp
      | cons b l₂ =>
          cases i with
          | zero => simp
          | succ j => simpa using ih l₂ j

theorem ewmAux_length (a p : ℚ) : ∀ xs : List ℚ, (ewmAux a p xs).length = xs.length := by
  intro xs
  induction xs generalizing p with
  | nil => simp [ewmAux]
  | cons x xs ih => simp [ewmAux, ih]

theorem ewmMean_length (a : ℚ) (xs : List ℚ) : (ewmMean a xs).length = xs.length := by
  cases xs with
  | nil => simp [ewmMean]
  | cons x xs => simp [ewmMean, ewmAux_length]

theorem rollingMeanQ_get (xs : List ℚ) (w t : ℕ) (ht : t < xs.length) :
    (rollingMeanQ xs w)[t]? =
      some (if t + 1 < w then none
            else some (((xs.drop (t + 1 - w)).take w).sum / (w : ℚ))) := by
  simp [rollingMeanQ, ht]

theorem rollingMeanF_get (xs : List PyF) (w t : ℕ) (ht : t < xs.length) :
    (rollingMeanF xs w)[t]? =
      some (if t + 1 < w then PyF.nan
            else PyF.div ((windowSliceF xs w t).foldr PyF.add (PyF.fin 0)) (PyF.fin w)) := by
  simp [rollingMeanF, ht]

/-- Claim C3: for every input Close series and positive window, `sma`
succeeds and returns a series of the same length whose first `window-1`
entries are missing and whose entry at each later row `t` is the
arithmetic mean of the trailing `window` Close values ending at row `t`
(stated as: the window slice has length `window` and `window · m` equals
its sum). -/
theorem c3_sma_rolling_spec (close : List ℚ) (window : ℤ) (hw : 0 < window) :
    ∃ l, sma close window = Except.ok l
      ∧ l.length = close.length
      ∧ (∀ t, t < close.length → t + 1 < window.toNat → l[t]? = some none)
      ∧ (∀ t, t < close.length → window.toNat ≤ t + 1 →
          ∃ m, l[t]? = some (some m)
            ∧ ((close.drop (t + 1 - window.toNat)).take window.toNat).length = window.toNat
            ∧ (window.toNat : ℚ) * m
                = ((close.drop (t + 1 - window.toNat)).take window.toNat).sum) := by
  have hw' : ¬ window ≤ 0 := not_le.mpr hw
  have hwN : 0 < window.toNat := by omega
  refine ⟨rollingMeanQ close window.toNat, by simp [sma, hw'], by simp [rollingMeanQ], ?_, ?_⟩
  · intro t ht hlt
    rw [rollingMeanQ_get close window.toNat t ht]
    simp [hlt]
  · intro t ht hge
    have hlt : ¬ t + 1 < window.toNat := by omega
    refine ⟨((close.drop (t + 1 - window.toNat)).take window.toNat).sum / (window.toNat : ℚ),
      ?_, ?_, ?_⟩
    · rw [rollingMeanQ_get close window.toNat t ht]
      simp [hlt]
    · simp only [List.length_take, List.length_drop]
      omega
    · have hne : ((window.toNat : ℚ)) ≠ 0 := by
        exact_mod_cast Nat.pos_iff_ne_zero.mp hwN
      field_simp

/-- Witness for claim C3 on the series `[1, 2, 3]` with window 2. -/
theorem c3_witness :
    ∃ l, sma [1, 2, 3] 2 = Except.ok l ∧ l.length = 3 ∧ l[0]? = some none := by
  obtain ⟨l, h1, h2, h3, _⟩ := c3_sma_rolling_spec [1, 2, 3] 2 (by norm_num)
  exact ⟨l, h1, by simpa using h2, h3 0 (by norm_num) (by norm_num)⟩

/-- Claim C5: for every Close series and positive periods, `macd` succeeds
and its Histogram column equals `MACD - Signal` exactly at every row, where
the frame's columns are the MACD line `EMA(fast) - EMA(slow)`, the Signal
line (EMA of the MACD line), and the histogram. -/
theorem c5_macd_histogram_identity (close : List ℚ) (fast slow signal : ℤ)
    (hf : 0 < fast) (hs : 0 < slow) (hg : 0 < signal) :
    ∃ fr, macd close fast slow signal = Except.ok fr
      ∧ fr.MACD.length = close.length
      ∧ fr.Signal.length = close.length
      ∧ fr.Histogram.length = close.length
      ∧ ∀ (t : ℕ) (m s : ℚ), fr.MACD[t]? = some m → fr.Signal[t]? = some s →
          fr.Histogram[t]? = some (m - s) := by
  have hcond : ¬ (fast ≤ 0 ∨ slow ≤ 0 ∨ signal ≤ 0) := by
    push_neg
    exact ⟨hf, hs, hg⟩
  refine ⟨_, by rw [macd, if_neg hcond], ?_, ?_, ?_, ?_⟩
  · simp [List.length_zipWith, ewmMean_length]
  · simp [List.length_zipWith, ewmMean_length]
  · simp [List.length_zipWith, ewmMean_length]
  · intro t m s hm hsg
    simp only at hm hsg ⊢
    rw [zipWith_get_eq, hm, hsg]
    rfl

/-- Witness for claim C5 on the series `[1, 2]` with periods 1, 2, 1. -/
theorem c5_witness :
    ∃ fr, macd [1, 2] 1 2 1 = Except.ok fr ∧ fr.Histogram.length = 2 := by
  obtain ⟨fr, h1, _, _, h4, _⟩ :=
    c5_macd_histogram_identity [1, 2] 1 2 1 (by norm_num) (by norm_num) (by norm_num)
  exact ⟨fr, h1, by simpa using h4⟩

/-! ### Constant Close series: facts feeding claim C2 -/

theorem seriesDiff_length (xs : List ℚ) : (seriesDiff xs).length = xs.length := by
  cases xs with
  | nil => simp [seriesDiff]
  | cons x rest => simp [seriesDiff, List.length_zipWith]

theorem rollingMeanF_length (xs : List PyF) (w : ℕ) :
    (rollingMeanF xs w).length = xs.length := by
  simp [rollingMeanF]

theorem seriesDiff_replicate (k : ℕ) (c : ℚ) :
    seriesDiff (List.replicate (k + 1) c) = PyF.nan :: List.replicate k (PyF.fin 0) := by
  have key : ∀ m : ℕ,
      List.zipWith (fun cur prev => PyF.fin (cur - prev))
        (List.replicate m c) (c :: List.replicate m c) = List.replicate m (PyF.fin 0) := by
    intro m
    induction m with
    | zero => simp
    | succ j ih =>
        rw [List.replicate_succ, List.zipWith_cons_cons, ih]
        simp [List.replicate_succ]
  rw [List.replicate_succ, seriesDiff]
  exact congrArg _ (key k)

theorem rsiGain_replicate (k : ℕ) (c : ℚ) :
    rsiGain (List.replicate (k + 1) c) = PyF.nan :: List.replicate k (PyF.fin 0) := by
  rw [rsiGain, seriesDiff_replicate]
  simp [clipLower0]

theorem rsiLoss_replicate (k : ℕ) (c : ℚ) :
    rsiLoss (List.replicate (k + 1) c) = PyF.nan :: List.replicate k (PyF.fin 0) := by
  rw [rsiLoss, seriesDiff_replicate]
  simp [clipUpper0, PyF.neg]

theorem foldr_add_replicate_zero (w : ℕ) :
    (List.replicate w (PyF.fin 0)).foldr PyF.add (PyF.fin 0) = PyF.fin 0 := by
  induction w with
  | zero => rfl
  | succ j ih => rw [List.replicate_succ, List.foldr_cons, ih]; simp [PyF.add]

theorem windowSlice_nan_cons (k w t : ℕ) (hw : w ≤ t) (ht : t ≤ k) :
    windowSliceF (PyF.nan :: List.replicate k (PyF.fin 0)) w t
      = List.replicate w (PyF.fin 0) := by
  rw [windowSliceF]
  have h1 : t + 1 - w = (t - w) + 1 := by omega
  rw [h1, List.drop_succ_cons, List.drop_replicate, List.take_replicate]
  congr 1
  omega

theorem ewmAux_const (a c : ℚ) : ∀ k : ℕ, ewmAux a c (List.replicate k c) = List.replicate k c := by
  intro k
  induction k with
  | zero => rfl
  | succ j ih =>
      rw [List.replicate_succ, ewmAux]
      have hy : (1 - a) * c + a * c = c := by ring
      simp only [hy]
      exact congrArg _ ih

theorem ewmMean_const (a c : ℚ) (n : ℕ) :
    ewmMean a (List.replicate n c) = List.replicate n c := by
  cases n with
  | zero => rfl
  | succ k =>
      rw [List.replicate_succ, ewmMean, ewmAux_const]

/-- Claim C2, counterexample: on the constant series `[5, 5, 5]` with
window 1, the rolling average loss at row 1 is zero, yet the RSI at that
row is NaN (a missing value), not the claimed saturation value 100: the
average gain is zero there too, so `RS = 0/0` is NaN, not infinity. -/
theorem c2_counterexample :
    (rsiAvgLoss [5, 5, 5] 1)[1]? = some (PyF.fin 0)
    ∧ rsi [5, 5, 5] 1 = Except.ok (rsiCore [5, 5, 5] 1)
    ∧ (rsiCore [5, 5, 5] 1)[1]? = some PyF.nan
    ∧ (rsiCore [5, 5, 5] 1)[1]? ≠ some (PyF.fin 100) := by
  have hdiff : seriesDiff [5, 5, 5] = [PyF.nan, PyF.fin 0, PyF.fin 0] := by
    norm_num [seriesDiff]
  have hloss : rsiLoss [5, 5, 5] = [PyF.nan, PyF.fin 0, PyF.fin 0] := by
    norm_num [rsiLoss, hdiff, clipUpper0, PyF.neg]
  have hgain : rsiGain [5, 5, 5] = [PyF.nan, PyF.fin 0, PyF.fin 0] := by
    norm_num [rsiGain, hdiff, clipLower0]
  have havg : rollingMeanF [PyF.nan, PyF.fin 0, PyF.fin 0] 1
      = [PyF.nan, PyF.fin 0, PyF.fin 0] := by
    norm_num [rollingMeanF, windowSliceF, List.range_succ, PyF.add, PyF.div]
  have hcore : rsiCore [5, 5, 5] 1 = [PyF.nan, PyF.nan, PyF.nan] := by
    have hd00 : PyF.div (PyF.fin 0) (PyF.fin 0) = PyF.nan := by
      norm_num [PyF.div]
    have hdnan : PyF.div PyF.nan PyF.nan = PyF.nan := rfl
    have haddnan : PyF.add (PyF.fin 1) PyF.nan = PyF.nan := rfl
    have hdivnan : PyF.div (PyF.fin 100) PyF.nan = PyF.nan := rfl
    have hsubnan : PyF.sub (PyF.fin 100) PyF.nan = PyF.nan := rfl
    rw [rsiCore]
    simp only [rsiAvgGain, rsiAvgLoss, hloss, hgain, havg]
    simp [hd00, hdnan, haddnan, hdivnan, hsubnan]
  refine ⟨?_, by rfl, ?_, ?_⟩
  · rw [rsiAvgLoss, hloss, havg]
    rfl
  · rw [hcore]
    rfl
  · rw [hcore]
    simp

/-- Claim C2, amended: for every Close series of constant value `c` and
positive window, `ema(window)` equals `c` at every row, and `rsi(window)`
reports NaN (a missing value, not an error) on every row where the rolling
average loss is defined and zero — the average gain is zero there as well,
so `RS = 0/0` is NaN rather than the infinity that would saturate RSI
to 100. -/
theorem c2_constant_series_amended (c : ℚ) (n : ℕ) (window : ℤ) (hw : 0 < window) :
    ema (List.replicate n c) window = Except.ok (List.replicate n c)
    ∧ ∃ L, rsi (List.replicate n c) window = Except.ok L
        ∧ L.length = n
        ∧ ∀ t : ℕ, window.toNat ≤ t → t < n →
            (rsiAvgLoss (List.replicate n c) window.toNat)[t]? = some (PyF.fin 0)
            ∧ L[t]? = some PyF.nan := by
  have hw' : ¬ window ≤ 0 := not_le.mpr hw
  have hwN : 0 < window.toNat := by omega
  set w := window.toNat with hwdef
  constructor
  · rw [ema, if_neg hw', ewmMean_const]
  · refine ⟨rsiCore (List.replicate n c) w, by rw [rsi, if_neg hw'], ?_, ?_⟩
    · simp [rsiCore, List.length_zipWith, rsiAvgGain, rsiAvgLoss, rollingMeanF_length,
        rsiGain, rsiLoss, seriesDiff_length]
    · intro t hwt htn
      have hn1 : n = (n - 1) + 1 := by omega
      have hGlen : (rsiGain (List.replicate n c)).length = n := by
        simp [rsiGain, seriesDiff_length]
      have hLlen : (rsiLoss (List.replicate n c)).length = n := by
        simp [rsiLoss, seriesDiff_length]
      have hslice :
          windowSliceF (PyF.nan :: List.replicate (n - 1) (PyF.fin 0)) w t
            = List.replicate w (PyF.fin 0) := windowSlice_nan_cons (n - 1) w t hwt (by omega)
      have hmean : PyF.div ((List.replicate w (PyF.fin 0)).foldr PyF.add (PyF.fin 0))
          (PyF.fin w) = PyF.fin 0 := by
        rw [foldr_add_replicate_zero]
        have hne : ((w : ℚ)) ≠ 0 := by exact_mod_cast Nat.pos_iff_ne_zero.mp hwN
        simp [PyF.div, hne]
      have hnlt : ¬ t + 1 < w := by omega
      have hgain : (rsiAvgGain (List.replicate n c) w)[t]? = some (PyF.fin 0) := by
        rw [rsiAvgGain, rollingMeanF_get _ _ _ (by rw [hGlen]; exact htn)]
        rw [if_neg hnlt]
        rw [hn1, rsiGain_replicate, hslice, hmean]
      have hloss : (rsiAvgLoss (List.replicate n c) w)[t]? = some (PyF.fin 0) := by
        rw [rsiAvgLoss, rollingMeanF_get _ _ _ (by rw [hLlen]; exact htn)]
        rw [if_neg hnlt]
        rw [hn1, rsiLoss_replicate, hslice, hmean]
      refine ⟨hloss, ?_⟩
      have hdiv00 : PyF.div (PyF.fin 0) (PyF.fin 0) = PyF.nan := by
        simp [PyF.div]
      have hrs : (List.zipWith PyF.div (rsiAvgGain (List.replicate n c) w)
          (rsiAvgLoss (List.replicate n c) w))[t]? = some PyF.nan := by
        rw [zipWith_get_eq, hgain, hloss]
        simp [hdiv00]
      rw [rsiCore]
      simp only [List.getElem?_map, hrs]
      rfl

/-- Witness for the amended claim C2 on the constant series of five 7s with
window 2: EMA is constantly 7 and RSI at row 3 is NaN while the rolling
average loss there is zero. -/
theorem c2_witness :
    ema (List.replicate 5 (7 : ℚ)) 2 = Except.ok (List.replicate 5 (7 : ℚ))
    ∧ ∃ L, rsi (List.replicate 5 (7 : ℚ)) 2 = Except.ok L ∧ L[3]? = some PyF.nan := by
  obtain ⟨h1, L, h2, _, h4⟩ := c2_constant_series_amended 7 5 2 (by norm_num)
  exact ⟨h1, L, h2, (h4 3 (by norm_num) (by norm_num)).2⟩

/-! ## Feature Builder: `features.py`, class FeatureEngineer

A DataFrame is an ordered association list of named float columns.
`FeatureEngineer` holds a private copy and mutates it in place; every
method below returns the table as mutated so far together with the
exception that escaped, if any — mutations made before an exception
persist, exactly as in Python. -/

/-- A pandas DataFrame: named float columns in order. -/
abbrev DF : Type := List (String × List PyF)

/-- Embeds `df[name]`, as a lookup: the first column with the given name. -/
def lookupCol : DF → String → Option (List PyF)
  | [], _ => none
  | c :: rest, nm => if c.1 = nm then some c.2 else lookupCol rest nm

/-- Embeds `df[name] = series`: replace the column in place if it exists,
otherwise append it on the right. -/
def setCol (df : DF) (nm : String) (s : List PyF) : DF :=
  if (lookupCol df nm).isSome
  then df.map (fun c => if c.1 = nm then (nm, s) else c)
  else df ++ [(nm, s)]

/-- Embeds `Series.shift(lag)`: the first `lag` entries become NaN and every
other entry moves down by `lag` rows; length is preserved. -/
def shiftSeries (xs : List PyF) (lag : ℕ) : List PyF :=
  (List.replicate lag PyF.nan ++ xs).take xs.length

/-- The Python f-string `"Close_lag_" + str(lag)`. -/
def lagColName (lag : ℤ) : String :=
  "Close_lag_" ++ toString lag

/-- Embeds `FeatureEngineer.add_lag_features`: iterate over the requested lags;
for each one first raise ValueError if it is not positive, then assign the
shifted Close column. The table mutated so far is returned together with
the escaped exception, if any. -/
def addLagFeatures (df : DF) : List ℤ → DF × Option Err
  | [] => (df, none)
  | lag :: rest =>
      if lag ≤ 0 then (df, some Err.validationError)
      else
        match lookupCol df "Close" with
        | none => (df, some Err.keyError)
        | some close => addLagFeatures (setCol df (lagColName lag) (shiftSeries close lag.toNat)) rest

/-- Embeds `Series.pct_change()`: `Return_t = Close_t / Close_{t-1} - 1`, first
entry NaN. -/
def pctChange (xs : List PyF) : List PyF :=
  match xs with
  | [] => []
  | _ :: rest =>
      PyF.nan :: List.zipWith (fun cur prev => PyF.sub (PyF.div cur prev) (PyF.fin 1)) rest xs

/-- Embeds `FeatureEngineer.add_returns`: assign the Return column (KeyError if
Close is absent, leaving the table untouched). -/
def addReturnsDF (df : DF) : DF :=
  match lookupCol df "Close" with
  | none => df
  | some close => setCol df "Return" (pctChange close)

/-- Embeds `FeatureEngineer.add_volatility`: guard on the window, compute Return
first when absent, then assign the Volatility column. The numeric kernel
`stdFn` abstracts `Series.rolling(window).std()` (sample standard
deviation, whose values are square roots and so fall outside exact
rational arithmetic); the claims proved below do not depend on its
values. -/
def addVolatilityDF (stdFn : List PyF → ℕ → List PyF) (df : DF) (window : ℤ) :
    DF × Option Err :=
  if window ≤ 0 then (df, some Err.validationError)
  else
    let df1 := if (lookupCol df "Return").isNone then addReturnsDF df else df
    (setCol df1 "Volatility" (stdFn ((lookupCol df1 "Return").getD []) window.toNat), none)

/-- The number of rows of a DataFrame (the length of its columns). -/
def dfNRows (df : DF) : ℕ :=
  ((lookupCol df "Close").map List.length).getD
    ((df.head?.map (fun c => c.2.length)).getD 0)

/-- Whether row `i` holds a NaN in any column. -/
def rowHasNa (df : DF) (i : ℕ) : Bool :=
  df.any (fun c => decide (c.2[i]? = some PyF.nan))

/-- Embeds `DataFrame.dropna(inplace=True)`: keep exactly the rows with no NaN
in any column. -/
def dropNaDF (df : DF) : DF :=
  let keep := (List.range (dfNRows df)).filter (fun i => ! rowHasNa df i)
  df.map (fun c => (c.1, keep.filterMap (fun i => c.2[i]?)))

/-! ### Column-store lemmas and claim C9 -/

theorem lookupCol_setCol_same (df : DF) (n : String) (s : List PyF) :
    lookupCol (setCol df n s) n = some s := by
  rw [setCol]
  by_cases hp : (lookupCol df n).isSome
  · rw [if_pos hp]
    induction df with
    | nil => simp [lookupCol] at hp
    | cons c rest ih =>
        by_cases hc : c.1 = n
        · simp [lookupCol, hc]
        · rw [lookupCol, if_neg hc] at hp
          simp only [List.map_cons, if_neg hc]
          rw [lookupCol, if_neg hc]
          exact ih hp
  · rw [if_neg hp]
    induction df with
    | nil => simp [lookupCol]
    | cons c rest ih =>
        have hc : ¬ c.1 = n := by
          intro hc
          exact hp (by rw [lookupCol, if_pos hc]; rfl)
        rw [lookupCol, if_neg hc] at hp
        rw [List.cons_append, lookupCol, if_neg hc]
        exact ih hp

theorem lookupCol_setCol_other (df : DF) (n m : String) (s : List PyF) (h : m ≠ n) :
    lookupCol (setCol df n s) m = lookupCol df m := by
  rw [setCol]
  by_cases hp : (lookupCol df n).isSome
  · rw [if_pos hp]
    clear hp
    induction df with
    | nil => rfl
    | cons c rest ih =>
        by_cases hc : c.1 = n
        · have hcm : ¬ c.1 = m := by rw [hc]; exact fun he => h he.symm
          simp only [List.map_cons, if_pos hc]
          rw [lookupCol, lookupCol, if_neg hcm, if_neg (fun he => h (Eq.symm he)), ih]
        · simp only [List.map_cons, if_neg hc]
          by_cases hcm : c.1 = m
          · rw [lookupCol, lookupCol, if_pos hcm, if_pos hcm]
          · rw [lookupCol, lookupCol, if_neg hcm, if_neg hcm, ih]
  · rw [if_neg hp]
    clear hp
    induction df with
    | nil =>
        rw [List.nil_append]
        simp [lookupCol, Ne.symm h]
    | cons c rest ih =>
        by_cases hcm : c.1 = m
        · rw [List.cons_append, lookupCol, lookupCol, if_pos hcm, if_pos hcm]
        · rw [List.cons_append, lookupCol, lookupCol, if_neg hcm, if_neg hcm, ih]

theorem lookupCol_setCol_isSome (df : DF) (n m : String) (s : List PyF)
    (h : (lookupCol df m).isSome) : (lookupCol (setCol df n s) m).isSome := by
  by_cases hmn : m = n
  · rw [hmn, lookupCol_setCol_same]
    rfl
  · rw [lookupCol_setCol_other df n m s hmn]
    exact h

theorem lagColName_ne_close (l : ℤ) : lagColName l ≠ "Close" := by
  intro h
  have h2 : ("Close_lag_" ++ toString l).length = ("Close" : String).length := by
    rw [lagColName] at h
    exact congrArg String.length h
  rw [String.length_append] at h2
  have h3 : ("Close_lag_" : String).length = 10 := rfl
  have h4 : ("Close" : String).length = 5 := rfl
  omega

theorem addLagFeatures_lookup_other :
    ∀ (lags : List ℤ) (df : DF) (nm : String),
      (∀ l ∈ lags, nm ≠ lagColName l) →
      lookupCol (addLagFeatures df lags).1 nm = lookupCol df nm := by
  intro lags
  induction lags with
  | nil => intro df nm _; rfl
  | cons lag rest ih =>
      intro df nm h
      rw [addLagFeatures]
      by_cases hl : lag ≤ 0
      · rw [if_pos hl]
      · rw [if_neg hl]
        cases hclose : lookupCol df "Close" with
        | none => rfl
        | some close =>
            have h1 := ih (setCol df (lagColName lag) (shiftSeries close lag.toNat)) nm
              (fun l hm => h l (List.mem_cons_of_mem _ hm))
            simp only [h1]
            exact lookupCol_setCol_other _ _ _ _ (h lag (List.mem_cons_self _ _))

theorem addLagFeatures_lookup_isSome :
    ∀ (lags : List ℤ) (df : DF) (nm : String),
      (lookupCol df nm).isSome →
      (lookupCol (addLagFeatures df lags).1 nm).isSome := by
  intro lags
  induction lags with
  | nil => intro df nm h; exact h
  | cons lag rest ih =>
      intro df nm h
      rw [addLagFeatures]
      by_cases hl : lag ≤ 0
      · rw [if_pos hl]
        exact h
      · rw [if_neg hl]
        cases hclose : lookupCol df "Close" with
        | none => exact h
        | some close =>
            exact ih _ nm (lookupCol_setCol_isSome _ _ _ _ h)

/-- Claim C9, counterexample: on a table with `Close = [1, 2, 3]`,
`add_lag_features([1, 0])` raises ValueError (the spec's ValidationError)
at the non-positive lag, but by then the column `Close_lag_1` has already
been added: the builder's working table is not left unchanged, so the
operation is not atomic on failure. -/
theorem c9_counterexample :
    (addLagFeatures [("Close", [PyF.fin 1, PyF.fin 2, PyF.fin 3])] [1, 0]).2
        = some Err.validationError
    ∧ (addLagFeatures [("Close", [PyF.fin 1, PyF.fin 2, PyF.fin 3])] [1, 0]).1
        = [("Close", [PyF.fin 1, PyF.fin 2, PyF.fin 3]),
           ("Close_lag_1", [PyF.nan, PyF.fin 1, PyF.fin 2])]
    ∧ (addLagFeatures [("Close", [PyF.fin 1, PyF.fin 2, PyF.fin 3])] [1, 0]).1
        ≠ [("Close", [PyF.fin 1, PyF.fin 2, PyF.fin 3])] := by
  refine ⟨by decide, by decide, by decide⟩

/-- Claim C9, amended: when the lag list splits as `pre ++ bad :: rest`
with every lag in `pre` positive and `bad` non-positive,
`add_lag_features` fails with ValidationError, but the working table
retains the lag columns added for every lag in `pre`; only when the
offending lag comes first is the table unchanged (columns other than the
`pre` lag columns are untouched either way). -/
theorem c9_add_lag_mutates_prefix :
    ∀ (pre : List ℤ) (df : DF) (close : List PyF) (bad : ℤ) (rest : List ℤ),
      lookupCol df "Close" = some close →
      (∀ l ∈ pre, 0 < l) → bad ≤ 0 →
      (addLagFeatures df (pre ++ bad :: rest)).2 = some Err.validationError
      ∧ (∀ l ∈ pre,
          (lookupCol (addLagFeatures df (pre ++ bad :: rest)).1 (lagColName l)).isSome)
      ∧ (∀ nm : String, (∀ l ∈ pre, nm ≠ lagColName l) →
          lookupCol (addLagFeatures df (pre ++ bad :: rest)).1 nm = lookupCol df nm) := by
  intro pre
  induction pre with
  | nil =>
      intro df close bad rest _ _ hbad
      rw [List.nil_append, addLagFeatures, if_pos hbad]
      refine ⟨rfl, ?_, ?_⟩
      · intro l hl
        cases hl
      · intro nm _
        rfl
  | cons lag pre ih =>
      intro df close bad rest hclose hpre hbad
      have hlag : 0 < lag := hpre lag (List.mem_cons_self _ _)
      have hl : ¬ lag ≤ 0 := not_le.mpr hlag
      rw [List.cons_append, addLagFeatures, if_neg hl, hclose]
      have hclose2 : lookupCol (setCol df (lagColName lag) (shiftSeries close lag.toNat))
          "Close" = some close := by
        rw [lookupCol_setCol_other _ _ _ _ (fun he => lagColName_ne_close lag he.symm)]
        exact hclose
      obtain ⟨ih1, ih2, ih3⟩ := ih _ close bad rest hclose2
        (fun l hm => hpre l (List.mem_cons_of_mem _ hm)) hbad
      refine ⟨ih1, ?_, ?_⟩
      · intro l hm
        rcases List.mem_cons.mp hm with hEq | hm2
        · subst hEq
          exact addLagFeatures_lookup_isSome _ _ _
            (by rw [lookupCol_setCol_same]; rfl)
        · exact ih2 l hm2
      · intro nm hnm
        rw [ih3 nm (fun l hm => hnm l (List.mem_cons_of_mem _ hm))]
        exact lookupCol_setCol_other _ _ _ _ (hnm lag (List.mem_cons_self _ _))

/-- Witness for the amended claim C9: with `Close = [1, 2, 3]` and lags
`[1, 0]`, the call fails with ValidationError, the `Close_lag_1` column is
present in the mutated table, and the Close column is untouched. -/
theorem c9_witness :
    (addLagFeatures [("Close", [PyF.fin 1, PyF.fin 2, PyF.fin 3])] [1, 0]).2
        = some Err.validationError
    ∧ (lookupCol (addLagFeatures [("Close", [PyF.fin 1, PyF.fin 2, PyF.fin 3])] [1, 0]).1
        (lagColName 1)).isSome
    ∧ lookupCol (addLagFeatures [("Close", [PyF.fin 1, PyF.fin 2, PyF.fin 3])] [1, 0]).1
        "Close" = some [PyF.fin 1, PyF.fin 2, PyF.fin 3] := by
  have h := c9_add_lag_mutates_prefix [1] [("Close", [PyF.fin 1, PyF.fin 2, PyF.fin 3])]
    [PyF.fin 1, PyF.fin 2, PyF.fin 3] 0 [] rfl
    (by intro l hl; rw [List.mem_singleton] at hl; rw [hl]; norm_num) (by norm_num)
  refine ⟨h.1, h.2.1 1 (List.mem_singleton.mpr rfl), ?_⟩
  exact h.2.2 "Close" (by intro l hl; rw [List.mem_singleton] at hl; rw [hl]
                          exact fun he => lagColName_ne_close 1 he.symm)

/-! ## Private copies: the heap model for claim C10

Python objects alias tables through references; the heap below makes that
aliasing observable. Each constructor of the three components performs
`df.copy()`: it allocates a fresh cell initialised with the value of the
caller's cell. The Indicator Engine's and Forecast Selector's operations
only read their own cell (modelled by the pure functions above); the
Feature Builder's operations write the mutated table back to its own
cell. -/

/-- The heap: table values addressed by natural-number references. -/
abbrev Heap := List DF

/-- Dereference. -/
def readH (h : Heap) (r : ℕ) : Option DF := h[r]?

/-- In-place update of one cell. -/
def writeH (h : Heap) (r : ℕ) (v : DF) : Heap := h.set r v

/-- Allocate a fresh cell (as `df.copy()` does), returning its reference. -/
def allocH (h : Heap) (v : DF) : Heap × ℕ := (h ++ [v], h.length)

/-- Embeds `df.empty`: no values in any column. -/
def dfEmpty (df : DF) : Bool := df.all (fun c => c.2.isEmpty)

/-- Embeds `TechnicalIndicators.__init__`: `self.data = data.copy()` then
`self._validate()` (Close column present, table non-empty); a failed
construction discards the temporary copy, so no allocation is observable. -/
def TechnicalIndicators.init (h : Heap) (caller : ℕ) : Except Err (Heap × ℕ) :=
  let v := (readH h caller).getD []
  if (lookupCol v "Close").isNone then Except.error Err.validationError
  else if dfEmpty v then Except.error Err.validationError
  else Except.ok (allocH h v)

/-- Embeds `FeatureEngineer.__init__`: raise on an empty table, then
`self.df = df.copy()`. -/
def FeatureEngineer.init (h : Heap) (caller : ℕ) : Except Err (Heap × ℕ) :=
  let v := (readH h caller).getD []
  if dfEmpty v then Except.error Err.validationError
  else Except.ok (allocH h v)

/-- Embeds `PriceForecaster.__init__` (heap view): raise if the target column is
absent, then `self.df = df.copy()`. -/
def PriceForecaster.initH (h : Heap) (caller : ℕ) (target : String) :
    Except Err (Heap × ℕ) :=
  let v := (readH h caller).getD []
  if (lookupCol v target).isNone then Except.error Err.validationError
  else Except.ok (allocH h v)

/-- The mutating methods of the Feature Builder. -/
inductive FEOp where
  | addLag (lags : List ℤ)
  | addReturns
  | addVolatility (window : ℤ)
  | dropNa

/-- The table one Feature Builder method leaves in `self.df`, as a
function of its current value (mutations made before an exception
persist; the escaped exception is not needed for the frame property). -/
def FEOp.apply (stdFn : List PyF → ℕ → List PyF) (df : DF) : FEOp → DF
  | FEOp.addLag lags => (addLagFeatures df lags).1
  | FEOp.addReturns => addReturnsDF df
  | FEOp.addVolatility w => (addVolatilityDF stdFn df w).1
  | FEOp.dropNa => dropNaDF df

/-- Run a chain of Feature Builder methods: each reads the builder's cell
and writes the mutated table back to the same cell. -/
def runFEOps (stdFn : List PyF → ℕ → List PyF) (h : Heap) (r : ℕ) : List FEOp → Heap
  | [] => h
  | op :: rest =>
      runFEOps stdFn (writeH h r (FEOp.apply stdFn ((readH h r).getD []) op)) r rest

theorem readH_writeH_ne (h : Heap) (r r' : ℕ) (v : DF) (hne : r' ≠ r) :
    readH (writeH h r v) r' = readH h r' := by
  rw [readH, readH, writeH, List.getElem?_set_ne (fun he => hne he.symm)]

theorem readH_append_left (h : Heap) (v : DF) (r : ℕ) (hr : r < h.length) :
    readH (h ++ [v]) r = readH h r := by
  rw [readH, readH, List.getElem?_append, if_pos hr]

theorem runFEOps_frame (stdFn : List PyF → ℕ → List PyF) :
    ∀ (ops : List FEOp) (h : Heap) (r r0 : ℕ), r0 ≠ r →
      readH (runFEOps stdFn h r ops) r0 = readH h r0 := by
  intro ops
  induction ops with
  | nil => intro h r r0 _; rfl
  | cons op rest ih =>
      intro h r r0 hne
      rw [runFEOps, ih _ _ _ hne, readH_writeH_ne _ _ _ _ hne]

/-- Claim C10: each component copies the table it is given into a private
cell. Running any chain of Feature Builder operations never changes the
caller's cell, and a later write to the caller's cell does not change any
component's private cell (so results computed from it are unchanged);
likewise for the Indicator Engine and Forecast Selector, whose operations
only read their private cell. -/
theorem c10_private_copy_frame (h : Heap) (r0 : ℕ) (hr0 : r0 < h.length) :
    (∀ hfe rfe, FeatureEngineer.init h r0 = Except.ok (hfe, rfe) →
      (∀ stdFn ops, readH (runFEOps stdFn hfe rfe ops) r0 = readH h r0)
      ∧ (∀ stdFn ops v,
          readH (writeH (runFEOps stdFn hfe rfe ops) r0 v) rfe
            = readH (runFEOps stdFn hfe rfe ops) rfe))
    ∧ (∀ hti rti, TechnicalIndicators.init h r0 = Except.ok (hti, rti) →
        ∀ v, readH (writeH hti r0 v) rti = readH hti rti)
    ∧ (∀ hpf rpf tgt, PriceForecaster.initH h r0 tgt = Except.ok (hpf, rpf) →
        ∀ v, readH (writeH hpf r0 v) rpf = readH hpf rpf) := by
  refine ⟨?_, ?_, ?_⟩
  · intro hfe rfe hinit
    rw [FeatureEngineer.init] at hinit
    split at hinit
    · cases hinit
    · simp only [Except.ok.injEq, allocH, Prod.mk.injEq] at hinit
      obtain ⟨hh, hr⟩ := hinit
      have hne : r0 ≠ rfe := by omega
      constructor
      · intro stdFn ops
        rw [runFEOps_frame stdFn ops hfe rfe r0 hne, ← hh,
          readH_append_left h _ r0 hr0]
      · intro stdFn ops v
        exact readH_writeH_ne _ _ _ _ (fun he => hne he.symm)
  · intro hti rti hinit
    rw [TechnicalIndicators.init] at hinit
    split at hinit
    · cases hinit
    · split at hinit
      · cases hinit
      · simp only [Except.ok.injEq, allocH, Prod.mk.injEq] at hinit
        obtain ⟨hh, hr⟩ := hinit
        intro v
        exact readH_writeH_ne _ _ _ _ (by omega)
  · intro hpf rpf tgt hinit
    rw [PriceForecaster.initH] at hinit
    split at hinit
    · cases hinit
    · simp only [Except.ok.injEq, allocH, Prod.mk.injEq] at hinit
      obtain ⟨hh, hr⟩ := hinit
      intro v
      exact readH_writeH_ne _ _ _ _ (by omega)

/-- Witness for claim C10: a one-cell heap holding `Close = [1]`; after
constructing a Feature Builder (its copy lives in cell 1) and running
`add_returns`, the caller's cell 0 is unchanged. -/
theorem c10_witness :
    readH (runFEOps (fun xs _ => xs)
        [[("Close", [PyF.fin 1])], [("Close", [PyF.fin 1])]] 1 [FEOp.addReturns]) 0
      = readH [[("Close", [PyF.fin 1])]] 0 := by
  have h := (c10_private_copy_frame [[("Close", [PyF.fin 1])]] 0 (by decide)).1
  exact (h [[("Close", [PyF.fin 1])], [("Close", [PyF.fin 1])]] 1 rfl).1
    (fun xs _ => xs) [FEOp.addReturns]

/-! ## Forecast Selector: `forecasting.py`, class PriceForecaster

The forecaster holds a copy of the feature table (numeric columns; the
copy discipline itself is proved in the heap model above). The sklearn
regressors are abstracted: a model is a value of an abstract type `M`,
fitting is a function from the training data to `M`, and a fitted model's
predictions on the test rows are given by a `predict` function. What the
source contributes — the 80/20 split with its empty-train-set ValueError,
the RMSE scoring, the strict-best selection loop over the fixed
two-candidate registry, the recorded attributes and the not-trained
guard — is embedded below. -/

/-- Column lookup in a numeric table. -/
def lookupColQ : List (String × List ℚ) → String → Option (List ℚ)
  | [], _ => none
  | c :: rest, nm => if c.1 = nm then some c.2 else lookupColQ rest nm

/-- The forecaster state: the held table and target name, plus the
attributes assigned by training (`none` while the attribute does not
exist yet). -/
structure Forecaster (M : Type) where
  df : List (String × List ℚ)
  target : String
  model : Option M
  best_model_name : Option String
  rmse : Option (WithTop ℝ)

/-- Embeds `PriceForecaster.__init__(df, target)`: raise if the target
column is absent; no trained-model attributes exist yet. -/
def PriceForecaster.init {M : Type} (df : List (String × List ℚ)) (target : String) :
    Except Err (Forecaster M) :=
  if (lookupColQ df target).isSome
  then Except.ok (Forecaster.mk df target none none none)
  else Except.error Err.validationError

/-- Embeds `sklearn.model_selection.train_test_split(test_size=0.2,
shuffle=False)` on one row-indexed column of values: sklearn computes
`n_test = ceil(0.2 * n)` and `n_train = n - n_test`; its
`_validate_shuffle_split` raises ValueError when the resulting train set
would be empty (tables with fewer than two rows), and otherwise returns
the leading `n_train` rows and the trailing `n_test` rows in original
order. -/
def train_test_split {α : Type} (l : List α) : Except Err (List α × List α) :=
  let nTest := (l.length + 4) / 5
  let nTrain := l.length - nTest
  if nTrain = 0 then Except.error Err.validationError
  else Except.ok (l.take nTrain, l.drop nTrain)

/-- Embeds `PriceForecaster._prepare_data`:
`X = df.drop(columns=[target])`, `y = df[target]`, then one call of the
deterministic unshuffled split — the ValueError for an empty train
partition propagates; on success the single row cut is applied to the
target column and to every feature column. -/
def Forecaster.prepareData {M : Type} (fc : Forecaster M) :
    Except Err ((List (String × List ℚ) × List (String × List ℚ)) × (List ℚ × List ℚ)) :=
  let X := fc.df.filter (fun c => ! (c.1 == fc.target))
  let y := (lookupColQ fc.df fc.target).getD []
  match train_test_split y with
  | Except.error e => Except.error e
  | Except.ok p =>
      Except.ok ((X.map (fun c => (c.1, c.2.take p.1.length)),
                  X.map (fun c => (c.1, c.2.drop p.1.length))),
                 p)

/-- Embeds `sklearn.metrics.mean_squared_error`: the mean of the squared
differences. -/
def mean_squared_error (yTrue yPred : List ℚ) : ℚ :=
  (List.zipWith (fun a b => (a - b) ^ 2) yTrue yPred).sum / (yTrue.length : ℚ)

/-- Embeds `np.sqrt(mean_squared_error(y_test, preds))`. -/
noncomputable def rmseScore (yTest preds : List ℚ) : ℝ :=
  Real.sqrt ((mean_squared_error yTest preds : ℚ) : ℝ)

/-- Embeds `PriceForecaster.train_and_select_model`: prepare the data
(propagating its ValueError), fit the two registered candidates in the
fixed dict order (`LinearRegression` then `RandomForest`), score each by
RMSE on the held-out test targets, and keep the strictly better one
starting from `best_rmse = float("inf")` — so the first candidate wins
exact ties. The winning model, its name and its RMSE are recorded on the
forecaster, and the model and RMSE are returned. -/
noncomputable def Forecaster.train_and_select_model {M : Type} (fc : Forecaster M)
    (fitLR fitRF : List (String × List ℚ) → List ℚ → M)
    (predict : M → List (String × List ℚ) → List ℚ) :
    Except Err (Forecaster M × (Option M × WithTop ℝ)) :=
  match fc.prepareData with
  | Except.error e => Except.error e
  | Except.ok p =>
      let XTrain := p.1.1
      let XTest := p.1.2
      let yTrain := p.2.1
      let yTest := p.2.2
      let models : List (String × M) :=
        [("LinearRegression", fitLR XTrain yTrain), ("RandomForest", fitRF XTrain yTrain)]
      let res := models.foldl
        (fun acc nm =>
          let r : WithTop ℝ := ((rmseScore yTest (predict nm.2 XTest) : ℝ) : WithTop ℝ)
          if r < acc.2.2 then (some nm.2, (some nm.1, r)) else acc)
        (none, (none, (⊤ : WithTop ℝ)))
      Except.ok
        ({ fc with model := res.1, best_model_name := res.2.1, rmse := some res.2.2 },
         (res.1, res.2.2))

/-- Embeds `PriceForecaster.predict_next`:
RuntimeError("Model is not trained.") when the model attribute does not
exist, otherwise the first entry of `self.model.predict(X_last)`. -/
def Forecaster.predict_next {M : Type} (fc : Forecaster M)
    (predict : M → List (String × List ℚ) → List ℚ)
    (XLast : List (String × List ℚ)) : Except Err ℚ :=
  match fc.model with
  | none => Except.error Err.notTrainedError
  | some m =>
      match predict m XLast with
      | [] => Except.error Err.indexError
      | v :: _ => Except.ok v

theorem train_test_split_small {α : Type} (l : List α) (hl : l.length ≤ 1) :
    train_test_split l = Except.error Err.validationError := by
  rw [train_test_split]
  have h : l.length - (l.length + 4) / 5 = 0 := by omega
  simp only [h, if_pos]

theorem train_test_split_success {α : Type} (l : List α) (hl : 2 ≤ l.length) :
    train_test_split l
      = Except.ok (l.take (4 * l.length / 5), l.drop (4 * l.length / 5)) := by
  rw [train_test_split]
  have h1 : l.length - (l.length + 4) / 5 = 4 * l.length / 5 := by omega
  have h3 : ¬ (4 * l.length / 5 = 0) := by omega
  simp only [h1, if_neg h3]

/-- Claim C6, counterexample: a one-row feature table is accepted by the
constructor (only the target column is checked), yet `_prepare_data`
raises ValueError there — sklearn's `_validate_shuffle_split` rejects a
split whose train partition would be empty — so the universally
quantified claim that data preparation assigns a leading-80% training
partition for every feature table is false: at this table no partition is
produced at all. -/
theorem c6_counterexample :
    PriceForecaster.init [("Close", [(1:ℚ)])] "Close"
        = Except.ok (Forecaster.mk [("Close", [(1:ℚ)])] "Close" (none : Option ℕ) none none)
    ∧ (Forecaster.mk [("Close", [(1:ℚ)])] "Close" (none : Option ℕ) none none).prepareData
        = Except.error Err.validationError :=
  ⟨rfl, rfl⟩

/-- Claim C6, amended: `_prepare_data` is a pure function of the table
(no shuffling, no randomness; two runs agree). On a table with fewer than
two rows the split raises ValidationError — sklearn rejects an empty
train partition — and produces nothing; on every table with at least two
rows it deterministically assigns the leading `⌊4n/5⌋` rows (original
order) of the target column and of every feature column to the training
partition and the trailing `⌈n/5⌉` rows to the test partition, the two
partitions concatenating back to the original column. -/
theorem c6_prepare_data_ordered_split {M : Type} (fc : Forecaster M) :
    (((lookupColQ fc.df fc.target).getD []).length ≤ 1 →
      fc.prepareData = Except.error Err.validationError)
    ∧ (2 ≤ ((lookupColQ fc.df fc.target).getD []).length →
      fc.prepareData = Except.ok
        (((fc.df.filter (fun c => ! (c.1 == fc.target))).map
            (fun c => (c.1,
              c.2.take (4 * ((lookupColQ fc.df fc.target).getD []).length / 5))),
          (fc.df.filter (fun c => ! (c.1 == fc.target))).map
            (fun c => (c.1,
              c.2.drop (4 * ((lookupColQ fc.df fc.target).getD []).length / 5)))),
         (((lookupColQ fc.df fc.target).getD []).take
            (4 * ((lookupColQ fc.df fc.target).getD []).length / 5),
          ((lookupColQ fc.df fc.target).getD []).drop
            (4 * ((lookupColQ fc.df fc.target).getD []).length / 5)))
      ∧ ((lookupColQ fc.df fc.target).getD []).take
            (4 * ((lookupColQ fc.df fc.target).getD []).length / 5)
          ++ ((lookupColQ fc.df fc.target).getD []).drop
            (4 * ((lookupColQ fc.df fc.target).getD []).length / 5)
          = (lookupColQ fc.df fc.target).getD []
      ∧ (((lookupColQ fc.df fc.target).getD []).take
            (4 * ((lookupColQ fc.df fc.target).getD []).length / 5)).length
          = 4 * ((lookupColQ fc.df fc.target).getD []).length / 5) := by
  constructor
  · intro hle
    simp only [Forecaster.prepareData, train_test_split_small _ hle]
  · intro h2
    have hlen : (((lookupColQ fc.df fc.target).getD []).take
        (4 * ((lookupColQ fc.df fc.target).getD []).length / 5)).length
        = 4 * ((lookupColQ fc.df fc.target).getD []).length / 5 := by
      rw [List.length_take]
      exact Nat.min_eq_left (by omega)
    refine ⟨?_, List.take_append_drop _ _, hlen⟩
    simp only [Forecaster.prepareData, train_test_split_success _ h2, hlen]

/-- Witness for the amended claim C6: a five-row Close-only table splits
into the leading four rows and the trailing one. -/
theorem c6_witness :
    (Forecaster.mk [("Close", [(1:ℚ), 2, 3, 4, 5])] "Close" (none : Option ℕ) none
        none).prepareData
      = Except.ok ((([] : List (String × List ℚ)), ([] : List (String × List ℚ))),
          ([(1:ℚ), 2, 3, 4], [(5:ℚ)])) := by
  have h := (c6_prepare_data_ordered_split
    (Forecaster.mk [("Close", [(1:ℚ), 2, 3, 4, 5])] "Close" (none : Option ℕ) none
      none)).2 (by decide)
  rw [h.1]
  rfl

/-- Claim C7: whenever `_prepare_data` succeeds, `train_and_select_model`
trains both registered candidates, scores each by
`RMSE = sqrt(mean squared error)` of its predictions on the held-out test
targets, and retains the candidate with the lower RMSE —
`LinearRegression`, the first candidate in the fixed ordering, wins exact
ties (the update requires a strictly smaller RMSE). The winner's model,
name and RMSE are recorded on the forecaster and the model is returned
together with its RMSE. -/
theorem c7_train_and_select {M : Type} (fc : Forecaster M)
    (fitLR fitRF : List (String × List ℚ) → List ℚ → M)
    (predict : M → List (String × List ℚ) → List ℚ)
    (XTrain XTest : List (String × List ℚ)) (yTrain yTest : List ℚ)
    (hp : fc.prepareData = Except.ok ((XTrain, XTest), (yTrain, yTest))) :
    (rmseScore yTest (predict (fitLR XTrain yTrain) XTest)
      ≤ rmseScore yTest (predict (fitRF XTrain yTrain) XTest) →
      fc.train_and_select_model fitLR fitRF predict
        = Except.ok
            ({ fc with
                model := some (fitLR XTrain yTrain),
                best_model_name := some "LinearRegression",
                rmse := some ((rmseScore yTest
                  (predict (fitLR XTrain yTrain) XTest) : ℝ) : WithTop ℝ) },
             (some (fitLR XTrain yTrain),
              ((rmseScore yTest (predict (fitLR XTrain yTrain) XTest) : ℝ) : WithTop ℝ))))
    ∧ (rmseScore yTest (predict (fitRF XTrain yTrain) XTest)
      < rmseScore yTest (predict (fitLR XTrain yTrain) XTest) →
      fc.train_and_select_model fitLR fitRF predict
        = Except.ok
            ({ fc with
                model := some (fitRF XTrain yTrain),
                best_model_name := some "RandomForest",
                rmse := some ((rmseScore yTest
                  (predict (fitRF XTrain yTrain) XTest) : ℝ) : WithTop ℝ) },
             (some (fitRF XTrain yTrain),
              ((rmseScore yTest (predict (fitRF XTrain yTrain) XTest) : ℝ) : WithTop ℝ)))) := by
  constructor
  · intro hle
    rw [Forecaster.train_and_select_model, hp]
    simp only [List.foldl_cons, List.foldl_nil]
    rw [if_pos (WithTop.coe_lt_top _)]
    rw [if_neg (by rw [WithTop.coe_lt_coe]; exact not_lt.mpr hle)]
  · intro hlt
    rw [Forecaster.train_and_select_model, hp]
    simp only [List.foldl_cons, List.foldl_nil]
    rw [if_pos (WithTop.coe_lt_top _)]
    rw [if_pos (by rw [WithTop.coe_lt_coe]; exact hlt)]

/-- Witness for claim C7: a five-row constant target; the linear candidate
predicts the test target exactly (RMSE 0) and the forest candidate is off
by 3 (RMSE 3), so LinearRegression is selected and recorded. -/
theorem c7_witness :
    ∃ fc1 r,
      (Forecaster.mk [("Close", [(0:ℚ), 0, 0, 0, 0])] "Close" (none : Option ℕ) none
          none).train_and_select_model (fun _ _ => 0) (fun _ _ => 1)
          (fun m _ => if m = 0 then [0] else [3]) = Except.ok (fc1, r)
        ∧ fc1.best_model_name = some "LinearRegression" := by
  have hp : (Forecaster.mk [("Close", [(0:ℚ), 0, 0, 0, 0])] "Close" (none : Option ℕ) none
      none).prepareData
      = Except.ok ((([] : List (String × List ℚ)), ([] : List (String × List ℚ))),
          ([(0:ℚ), 0, 0, 0], [(0:ℚ)])) := by
    rfl
  have hle : rmseScore [(0:ℚ)] [(0:ℚ)] ≤ rmseScore [(0:ℚ)] [(3:ℚ)] := by
    rw [rmseScore, rmseScore]
    apply Real.sqrt_le_sqrt
    norm_num [mean_squared_error]
  have h := (c7_train_and_select
    (Forecaster.mk [("Close", [(0:ℚ), 0, 0, 0, 0])] "Close" (none : Option ℕ) none none)
    (fun _ _ => 0) (fun _ _ => 1) (fun m _ => if m = 0 then [0] else [3])
    [] [] [(0:ℚ), 0, 0, 0] [(0:ℚ)] hp).1 hle
  exact ⟨_, _, h, rfl⟩

theorem train_and_select_ok_model {M : Type} (fc : Forecaster M)
    (fitLR fitRF : List (String × List ℚ) → List ℚ → M)
    (predict : M → List (String × List ℚ) → List ℚ)
    (fc1 : Forecaster M) (r : Option M × WithTop ℝ)
    (hok : fc.train_and_select_model fitLR fitRF predict = Except.ok (fc1, r)) :
    ∃ m, fc1.model = some m := by
  cases hprep : fc.prepareData with
  | error e =>
      rw [Forecaster.train_and_select_model, hprep] at hok
      exact Except.noConfusion hok
  | ok p =>
      rw [Forecaster.train_and_select_model, hprep] at hok
      simp only [List.foldl_cons, List.foldl_nil] at hok
      rw [if_pos (WithTop.coe_lt_top _)] at hok
      split at hok
      · simp only [Except.ok.injEq, Prod.mk.injEq] at hok
        obtain ⟨hfc1, _⟩ := hok
        subst hfc1
        exact ⟨_, rfl⟩
      · simp only [Except.ok.injEq, Prod.mk.injEq] at hok
        obtain ⟨hfc1, _⟩ := hok
        subst hfc1
        exact ⟨_, rfl⟩

/-- Claim C8: on any freshly constructed forecaster, `predict_next` fails
with the not-trained error (RuntimeError, the spec's NotTrainedError)
because the model attribute does not exist yet; after any successful
`train_and_select_model` call the model attribute holds one of the two
candidates (the first iteration always beats the `inf` sentinel), so
`predict_next` never fails with that error again. -/
theorem c8_not_trained_guard {M : Type} (df : List (String × List ℚ)) (target : String)
    (fc0 : Forecaster M) (hinit : PriceForecaster.init df target = Except.ok fc0) :
    (∀ predict XLast, fc0.predict_next predict XLast = Except.error Err.notTrainedError)
    ∧ (∀ fitLR fitRF predictFit predict2 XLast fc1 r,
        fc0.train_and_select_model fitLR fitRF predictFit = Except.ok (fc1, r) →
        fc1.predict_next predict2 XLast ≠ Except.error Err.notTrainedError) := by
  rw [PriceForecaster.init] at hinit
  split at hinit
  case isFalse => cases hinit
  case isTrue =>
    simp only [Except.ok.injEq] at hinit
    subst hinit
    constructor
    · intro predict XLast
      rfl
    · intro fitLR fitRF predictFit predict2 XLast fc1 r hok
      obtain ⟨m, hm⟩ := train_and_select_ok_model _ fitLR fitRF predictFit fc1 r hok
      cases hp : predict2 m XLast with
      | nil => simp [Forecaster.predict_next, hm, hp]
      | cons v rest => simp [Forecaster.predict_next, hm, hp]

/-- Witness for claim C8: a one-column table; construction succeeds with
no model attribute, and `predict_next` before training fails with the
not-trained error. -/
theorem c8_witness :
    (PriceForecaster.init [("Close", [(1:ℚ)])] "Close"
        = Except.ok (Forecaster.mk [("Close", [(1:ℚ)])] "Close" (none : Option ℕ) none none))
    ∧ (Forecaster.mk [("Close", [(1:ℚ)])] "Close" (none : Option ℕ) none
        none).predict_next (fun _ _ => [2]) [] = Except.error Err.notTrainedError := by
  have h := c8_not_trained_guard [("Close", [(1:ℚ)])] "Close"
    (Forecaster.mk [("Close", [(1:ℚ)])] "Close" (none : Option ℕ) none none) rfl
  exact ⟨rfl, h.1 (fun _ _ => [2]) []⟩
